import Mathlib

/-!
Verification of the session-orchestration and data-merge logic of the
Stock-Price-Prediction dashboard.

The embedded code comes from the React front end:

* `frontend/src/components/` App component (`handleStockSelect`, the
  `stock_update` socket listener and its bounded real-time buffer,
  prediction aggregation over the three model providers);
* `frontend/src/components/StockChart.js` (`prepareChartData`: lookback
  slicing, live-tail append, forecast overlay);
* `frontend/src/services/api.js` (`predictStock` absorbs provider errors
  into `{success:false}`; `getStockHistory`/`getStockInfo` rethrow).

JavaScript arrays are `List`, numbers used as ordered timestamps are `Nat`,
prices are `Int`, plain objects keyed by model name are association lists
in insertion order (`PredictionMap`), thrown exceptions are `Except`, and
the app's asynchronous event processing is a step machine over explicit
events (selection, fetch resolutions, socket pushes).
-/

/-- One real-time price update, as delivered on the `stock_update` socket
channel and stored in the `realTimeData` array. -/
structure LiveTick where
  symbol : String
  timestamp : Nat
  price : Int
  change : Int
  deriving DecidableEq

/-- Historical response payload (`historyResponse.data`): parallel arrays
of trading dates and closing prices, as consumed by `StockChart`. -/
structure HistoricalData where
  dates : List Nat
  close : List Int
  deriving DecidableEq

/-- One model's forecast payload (`result.data.predictions`). -/
structure ForecastSet where
  dates : List Nat
  predicted_prices : List Int
  lower_bounds : List Int
  upper_bounds : List Int
  deriving DecidableEq

/-- The `predictions` state object: model name keyed to that model's
forecast, in insertion order, keys unique (a JS object literal). -/
abbrev PredictionMap := List (String × ForecastSet)

/-- JS property read `obj[key]`: the value at `key`, if present. -/
def objGet : PredictionMap → String → Option ForecastSet
  | [], _ => none
  | p :: rest, k => if p.1 = k then some p.2 else objGet rest k

/-- JS property write `obj[key] = v`: replace in place when the key
exists, otherwise append a new key in insertion order. -/
def objSet : PredictionMap → String → ForecastSet → PredictionMap
  | [], k, v => [(k, v)]
  | p :: rest, k, v => if p.1 = k then (k, v) :: rest else p :: objSet rest k v

/-- JS object spread `{...prev, ...inc}`: every key of `inc` is written
over `prev`, in `inc`'s order. -/
def objMerge (prev inc : PredictionMap) : PredictionMap :=
  inc.foldl (fun acc p => objSet acc p.1 p.2) prev

/-- The `stock_update` listener's buffer update (`setRealTimeData`):
append the new point, then keep only the last 100 entries. -/
def pushTick (prevData : List LiveTick) (d : LiveTick) : List LiveTick :=
  let newData := prevData ++ [d]
  if newData.length > 100 then newData.drop (newData.length - 100) else newData

/-- Folding a whole sequence of pushed ticks into the buffer. -/
def pushAll (buf : List LiveTick) (ts : List LiveTick) : List LiveTick :=
  ts.foldl pushTick buf

/-- The trailing `n` entries of a list (all of it when shorter). -/
def takeLast (n : Nat) (l : List α) : List α :=
  l.drop (l.length - n)

theorem takeLast_length_le (n : Nat) (l : List α) : (takeLast n l).length ≤ n := by
  simp only [takeLast, List.length_drop]
  omega

theorem takeLast_of_length_le (n : Nat) (l : List α) (h : l.length ≤ n) :
    takeLast n l = l := by
  simp only [takeLast]
  rw [Nat.sub_eq_zero_of_le h, List.drop_zero]

theorem pushTick_eq_takeLast (buf : List LiveTick) (d : LiveTick) :
    pushTick buf d = takeLast 100 (buf ++ [d]) := by
  simp only [pushTick, takeLast]
  by_cases hlen : (buf ++ [d]).length > 100
  · rw [if_pos hlen]
  · rw [if_neg hlen]
    have h0 : (buf ++ [d]).length - 100 = 0 := by omega
    rw [h0, List.drop_zero]

theorem takeLast_drop_append (l ts : List α) (k n : Nat) (h : k + n ≤ l.length) :
    takeLast n (l.drop k ++ ts) = takeLast n (l ++ ts) := by
  have hk : k ≤ l.length := by omega
  simp only [takeLast]
  rw [← List.drop_append_of_le_length hk, List.drop_drop]
  congr 1
  simp only [List.length_drop, List.length_append]
  omega

theorem takeLast_takeLast_append (l ts : List α) (n : Nat) :
    takeLast n (takeLast n l ++ ts) = takeLast n (l ++ ts) := by
  by_cases h : l.length ≤ n
  · rw [takeLast_of_length_le n l h]
  · simp only [takeLast]
    have hcond : (l.length - n) + n ≤ l.length := by omega
    have := takeLast_drop_append l ts (l.length - n) n hcond
    simpa [takeLast] using this

theorem pushAll_eq_takeLast (ts : List LiveTick) (buf : List LiveTick)
    (hb : buf.length ≤ 100) :
    pushAll buf ts = takeLast 100 (buf ++ ts) := by
  induction ts generalizing buf with
  | nil =>
    simp only [pushAll, List.foldl_nil, List.append_nil]
    rw [takeLast_of_length_le 100 buf hb]
  | cons t ts ih =>
    have hstep : pushAll buf (t :: ts) = pushAll (pushTick buf t) ts := rfl
    have hp : (pushTick buf t).length ≤ 100 := by
      rw [pushTick_eq_takeLast]
      exact takeLast_length_le _ _
    rw [hstep, ih _ hp, pushTick_eq_takeLast, takeLast_takeLast_append]
    congr 1
    simp

/-- Claim C2: the real-time buffer, fed from empty by any sequence of
pushed live ticks, never exceeds 100 entries, and after more than 100
pushes it holds exactly the last 100 ticks in arrival order. -/
theorem liveBuffer_bounded_and_holds_last100 (ts : List LiveTick) :
    (pushAll [] ts).length ≤ 100 ∧
      (ts.length > 100 → pushAll [] ts = ts.drop (ts.length - 100)) := by
  have h : pushAll [] ts = takeLast 100 ts := by
    rw [pushAll_eq_takeLast ts [] (by simp), List.nil_append]
  refine ⟨?_, fun _ => ?_⟩
  · rw [h]; exact takeLast_length_le 100 ts
  · rw [h]; rfl

/-- A concrete 101-tick run exercising the buffer bound. -/
def ticks101 : List LiveTick :=
  (List.range 101).map (fun i => ⟨"AAPL", i, (i : Int), 0⟩)

/-- Witness for C2 at a concrete 101-tick sequence. -/
theorem liveBuffer_bounded_and_holds_last100_witness :
    (pushAll [] ticks101).length ≤ 100 ∧
      pushAll [] ticks101 = ticks101.drop (ticks101.length - 100) :=
  ⟨(liveBuffer_bounded_and_holds_last100 ticks101).1,
   (liveBuffer_bounded_and_holds_last100 ticks101).2 (by decide)⟩

theorem objGet_objSet_ne (l : PredictionMap) (m k : String) (v : ForecastSet)
    (hk : k ≠ m) : objGet (objSet l m v) k = objGet l k := by
  induction l with
  | nil =>
    simp [objSet, objGet, Ne.symm hk]
  | cons p rest ih =>
    by_cases hp : p.1 = m
    · have hm : ¬(m = k) := Ne.symm hk
      have hq : ¬(p.1 = k) := by rw [hp]; exact hm
      simp only [objSet, if_pos hp, objGet, if_neg hm, if_neg hq]
    · simp only [objSet, if_neg hp, objGet]
      by_cases hq : p.1 = k
      · rw [if_pos hq, if_pos hq]
      · rw [if_neg hq, if_neg hq, ih]

/-- Claim C9: spreading one provider's result into the predictions object
(`setPredictions(prev => ({...prev, ...incoming}))` with `incoming`
holding a single model key) overwrites only that model's key: every other
model key maps to the same forecast as before. -/
theorem mergeSingleResult_preserves_other_keys (prev : PredictionMap)
    (m : String) (fs : ForecastSet) (k : String) (hk : k ≠ m) :
    objGet (objMerge prev [(m, fs)]) k = objGet prev k := by
  have h1 : objMerge prev [(m, fs)] = objSet prev m fs := rfl
  rw [h1, objGet_objSet_ne prev m k fs hk]

/-- A sample forecast payload used by concrete witnesses. -/
def fsSampleA : ForecastSet := ⟨[200, 201], [10, 11], [9, 10], [11, 12]⟩

/-- A second sample forecast payload used by concrete witnesses. -/
def fsSampleB : ForecastSet := ⟨[200, 201], [20, 21], [19, 20], [21, 22]⟩

/-- Witness for C9: overwriting `arima` leaves the `prophet` entry as it
was. -/
theorem mergeSingleResult_preserves_other_keys_witness :
    objGet (objMerge [("prophet", fsSampleB)] [("arima", fsSampleA)]) "prophet"
      = objGet [("prophet", fsSampleB)] "prophet" :=
  mergeSingleResult_preserves_other_keys [("prophet", fsSampleB)] "arima"
    fsSampleA "prophet" (by decide)

/-- A selectable instrument as produced by the stock search
(`{symbol, name}`). -/
structure Stock where
  symbol : String
  name : String
  deriving DecidableEq

/-- Company info payload (`infoResponse.data`); carried opaquely by the
session, no field is inspected by the orchestration logic. -/
structure StockInfo where
  previousClose : Int
  volume : Nat
  deriving DecidableEq

/-- The App component's state hooks. -/
structure AppState where
  selectedStock : Option Stock
  stockData : Option HistoricalData
  stockInfo : Option StockInfo
  predictions : PredictionMap
  loading : Bool
  error : Option String
  realTimeData : List LiveTick
  deriving DecidableEq

/-- Payload of one `stock_update` socket message: a live tick, plus an
optional bundle of per-model predictions. -/
structure UpdateData where
  symbol : String
  timestamp : Nat
  price : Int
  change : Int
  predictions : Option PredictionMap
  deriving DecidableEq

/-- The `stock_update` socket listener: when a stock is selected and the
message's symbol matches it, push the tick into the bounded real-time
buffer and spread any attached predictions over the prediction map;
otherwise fall through without touching any state. -/
def onStockUpdate (s : AppState) (d : UpdateData) : AppState :=
  match s.selectedStock with
  | some st =>
    if d.symbol = st.symbol then
      let s' := { s with
        realTimeData := pushTick s.realTimeData ⟨d.symbol, d.timestamp, d.price, d.change⟩ }
      match d.predictions with
      | some p => { s' with predictions := objMerge s'.predictions p }
      | none => s'
    else s
  | none => s

/-- Claim C8: a live tick whose symbol differs from the selected stock's
symbol is discarded silently: the listener leaves the entire state
unchanged, so nothing is appended to the real-time buffer and no error
status or detail is produced. -/
theorem foreignTick_discarded_silently (s : AppState) (d : UpdateData)
    (st : Stock) (hsel : s.selectedStock = some st)
    (hsym : d.symbol ≠ st.symbol) : onStockUpdate s d = s := by
  simp [onStockUpdate, hsel, hsym]

/-- Witness for C8: a tick for `AAPL` arriving while `MSFT` is selected
leaves the state untouched. -/
theorem foreignTick_discarded_silently_witness :
    onStockUpdate
        ⟨some ⟨"MSFT", "Microsoft"⟩, none, none, [], false, none, []⟩
        ⟨"AAPL", 1, 5, 1, none⟩
      = ⟨some ⟨"MSFT", "Microsoft"⟩, none, none, [], false, none, []⟩ :=
  foreignTick_discarded_silently _ _ ⟨"MSFT", "Microsoft"⟩ rfl (by decide)

/-- The chart's lookback toggle values (`timeRange`). -/
inductive TimeRange where
  | m1
  | m3
  | m6
  | y1
  deriving DecidableEq

/-- JS `Array.prototype.slice(start)` with one argument: a negative start
counts back from the end (clamped at 0), a non-negative start is clamped
at the length; the rest of the array is returned. -/
def jsSlice (l : List α) (start : Int) : List α :=
  let s : Int :=
    if start < 0 then max ((l.length : Int) + start) 0
    else min start (l.length : Int)
  l.drop s.toNat

/-- The lookback slicing in `prepareChartData`: for 1m/3m/6m the cutoff
index `filteredDates.length - N` (N = 30/90/180) is passed to
`Array.slice` on both the date array and the close-price array; 1y keeps
both arrays whole. -/
def slicedHist (hd : HistoricalData) (tr : TimeRange) : List Nat × List Int :=
  match tr with
  | .m1 => (jsSlice hd.dates ((hd.dates.length : Int) - 30),
            jsSlice hd.close ((hd.dates.length : Int) - 30))
  | .m3 => (jsSlice hd.dates ((hd.dates.length : Int) - 90),
            jsSlice hd.close ((hd.dates.length : Int) - 90))
  | .m6 => (jsSlice hd.dates ((hd.dates.length : Int) - 180),
            jsSlice hd.close ((hd.dates.length : Int) - 180))
  | .y1 => (hd.dates, hd.close)

/-- One Chart.js dataset, reduced to the fields the merge logic
determines: its label and its data series. -/
structure Dataset where
  label : String
  data : List Int
  deriving DecidableEq

/-- The value returned by `prepareChartData`: the primary axis labels,
the dataset list, and the secondary-axis forecast dates. -/
structure ChartData where
  labels : List Nat
  datasets : List Dataset
  predictionDates : List Nat
  deriving DecidableEq

/-- The secondary-axis dates: `predictions[selectedModel].dates` when that
model is present, otherwise empty. -/
def predDates (predictions : PredictionMap) (selectedModel : String) : List Nat :=
  match objGet predictions selectedModel with
  | some pd => pd.dates
  | none => []

/-- The extra datasets pushed when predictions are shown and the selected
model is present: the prediction line, the upper confidence bound, and
the lower bound. -/
def forecastDatasets (predictions : PredictionMap) (showPredictions : Bool)
    (selectedModel : String) : List Dataset :=
  if showPredictions then
    match objGet predictions selectedModel with
    | some pd =>
        [⟨selectedModel.toUpper ++ " Prediction", pd.predicted_prices⟩,
         ⟨"Confidence Interval", pd.upper_bounds⟩,
         ⟨"Lower Bound", pd.lower_bounds⟩]
    | none => []
  else []

/-- `prepareChartData` from `StockChart.js`: bail out on missing
historical data; slice dates and closes by the lookback window; append
every buffered real-time point (timestamp to the labels, price to the
primary series); add the forecast datasets when shown; report the
selected model's forecast dates on the secondary axis. -/
def prepareChartData (historicalData : Option HistoricalData)
    (realTimeData : List LiveTick) (predictions : PredictionMap)
    (timeRange : TimeRange) (showPredictions : Bool)
    (selectedModel : String) : Option ChartData :=
  match historicalData with
  | none => none
  | some hd =>
    let sliced := slicedHist hd timeRange
    let filteredDates := sliced.1 ++ realTimeData.map LiveTick.timestamp
    let filteredPrices := sliced.2 ++ realTimeData.map LiveTick.price
    some { labels := filteredDates
           datasets := ⟨"Historical Price", filteredPrices⟩ ::
             forecastDatasets predictions showPredictions selectedModel
           predictionDates := predDates predictions selectedModel }

/-- A 25-day historical series: shorter than the 30-entry 1-month window. -/
def histShort25 : HistoricalData :=
  ⟨List.range 25, (List.range 25).map (fun i => (i : Int))⟩

/-- Claim C4 (code bug): for a series shorter than the requested window
the code does not return the full series. With 25 entries and the
1-month window the cutoff `25 - 30 = -5` is negative, so `slice`
counts from the end and keeps only the last 5 entries. -/
theorem lookback_short_series_not_full :
    (prepareChartData (some histShort25) [] [] .m1 false "arima").map
        ChartData.labels = some [20, 21, 22, 23, 24] ∧
      [20, 21, 22, 23, 24] ≠ histShort25.dates := by
  constructor
  · rfl
  · decide

/-- Claim C6: `prepareChartData` is a pure function of its five inputs:
two invocations on identical historical data, identical live-tick
snapshot, identical prediction map, identical lookback window, and
identical model selection produce identical output (and, the inputs being
immutable values, leave them unchanged). -/
theorem prepareChartData_deterministic (h₁ h₂ : Option HistoricalData)
    (r₁ r₂ : List LiveTick) (p₁ p₂ : PredictionMap) (t₁ t₂ : TimeRange)
    (sp₁ sp₂ : Bool) (m₁ m₂ : String) (eh : h₁ = h₂) (er : r₁ = r₂)
    (ep : p₁ = p₂) (et : t₁ = t₂) (es : sp₁ = sp₂) (em : m₁ = m₂) :
    prepareChartData h₁ r₁ p₁ t₁ sp₁ m₁ = prepareChartData h₂ r₂ p₂ t₂ sp₂ m₂ := by
  rw [eh, er, ep, et, es, em]

/-- Witness for C6 at one concrete input. -/
theorem prepareChartData_deterministic_witness :
    prepareChartData (some histShort25) [] [("arima", fsSampleA)] .y1 true "arima"
      = prepareChartData (some histShort25) [] [("arima", fsSampleA)] .y1 true "arima" :=
  prepareChartData_deterministic _ _ _ _ _ _ _ _ _ _ _ _
    rfl rfl rfl rfl rfl rfl

/-- Claim C7: every buffered live tick is appended, in arrival order,
after the sliced historical points: the labels are exactly the sliced
dates followed by the tick timestamps, and the primary price series is
exactly the sliced closes followed by the tick prices. The lookback
window enters only through `slicedHist`; the appended tick tail is the
same for every window. -/
theorem liveTail_appended_after_slice (hd : HistoricalData)
    (ticks : List LiveTick) (preds : PredictionMap) (tr : TimeRange)
    (sp : Bool) (m : String) (cd : ChartData)
    (hcd : prepareChartData (some hd) ticks preds tr sp m = some cd) :
    cd.labels = (slicedHist hd tr).1 ++ ticks.map LiveTick.timestamp ∧
      cd.datasets.head? = some ⟨"Historical Price",
        (slicedHist hd tr).2 ++ ticks.map LiveTick.price⟩ := by
  simp only [prepareChartData, Option.some.injEq] at hcd
  rw [← hcd]
  exact ⟨rfl, rfl⟩

/-- Witness for C7: one tick appended after a 1-month slice of a short
series. -/
theorem liveTail_appended_after_slice_witness :
    (⟨[23, 24, 500], [⟨"Historical Price", [23, 24, 7]⟩], []⟩ : ChartData).labels
        = (slicedHist ⟨[23, 24], [23, 24]⟩ .m1).1 ++ [(⟨"AAPL", 500, 7, 1⟩ : LiveTick)].map LiveTick.timestamp ∧
      (⟨[23, 24, 500], [⟨"Historical Price", [23, 24, 7]⟩], []⟩ : ChartData).datasets.head?
        = some ⟨"Historical Price",
            (slicedHist ⟨[23, 24], [23, 24]⟩ .m1).2 ++ [(⟨"AAPL", 500, 7, 1⟩ : LiveTick)].map LiveTick.price⟩ :=
  liveTail_appended_after_slice ⟨[23, 24], [23, 24]⟩ [⟨"AAPL", 500, 7, 1⟩] [] .m1
    false "arima" ⟨[23, 24, 500], [⟨"Historical Price", [23, 24, 7]⟩], []⟩ (by decide)

theorem slicedHist_dates_eq_drop (hd : HistoricalData) (tr : TimeRange) :
    ∃ k, (slicedHist hd tr).1 = hd.dates.drop k := by
  cases tr
  · exact ⟨_, rfl⟩
  · exact ⟨_, rfl⟩
  · exact ⟨_, rfl⟩
  · exact ⟨0, rfl⟩

/-- Claim C5: under the data-model invariants — historical dates strictly
increasing, tick timestamps strictly increasing and later than every
historical date, forecast dates later than every historical date and
every tick timestamp — the assembled primary date sequence (sliced
history followed by the live tail) is strictly increasing and every
forecast date strictly exceeds the last primary date. -/
theorem assembled_dates_strictly_increasing (hd : HistoricalData)
    (ticks : List LiveTick) (preds : PredictionMap) (tr : TimeRange)
    (sp : Bool) (m : String) (cd : ChartData)
    (hcd : prepareChartData (some hd) ticks preds tr sp m = some cd)
    (h1 : hd.dates.Pairwise (· < ·))
    (h2 : (ticks.map LiveTick.timestamp).Pairwise (· < ·))
    (h3 : ∀ d ∈ hd.dates, ∀ tk ∈ ticks, d < tk.timestamp)
    (h4 : ∀ d ∈ hd.dates, ∀ x ∈ predDates preds m, d < x)
    (h5 : ∀ tk ∈ ticks, ∀ x ∈ predDates preds m, tk.timestamp < x) :
    cd.labels.Pairwise (· < ·) ∧
      ∀ l, cd.labels.getLast? = some l → ∀ x ∈ cd.predictionDates, l < x := by
  simp only [prepareChartData, Option.some.injEq] at hcd
  subst hcd
  obtain ⟨k, hk⟩ := slicedHist_dates_eq_drop hd tr
  constructor
  · show ((slicedHist hd tr).1 ++ ticks.map LiveTick.timestamp).Pairwise (· < ·)
    rw [hk, List.pairwise_append]
    refine ⟨h1.sublist (List.drop_sublist k hd.dates), h2, ?_⟩
    intro a ha b hb
    obtain ⟨tk, htk, rfl⟩ := List.mem_map.mp hb
    exact h3 a (List.mem_of_mem_drop ha) tk htk
  · intro l hl x hx
    have hlm : l ∈ (slicedHist hd tr).1 ++ ticks.map LiveTick.timestamp :=
      List.mem_of_mem_getLast? (by rw [hl]; exact rfl)
    rcases List.mem_append.mp hlm with hc | hc
    · rw [hk] at hc
      exact h4 l (List.mem_of_mem_drop hc) x hx
    · obtain ⟨tk, htk, rfl⟩ := List.mem_map.mp hc
      exact h5 tk htk x hx

/-- Forecast payload used by the C5 witness: dates later than every
historical and live point. -/
def fsLate : ForecastSet := ⟨[8, 9], [13, 14], [12, 13], [14, 15]⟩

/-- The chart output used by the C5 witness. -/
def cdWitness : ChartData :=
  ⟨[1, 2, 3, 5],
   ⟨"Historical Price", [10, 11, 12, 20]⟩ ::
     forecastDatasets [("arima", fsLate)] true "arima",
   predDates [("arima", fsLate)] "arima"⟩

/-- Witness for C5: three historical days, one live tick, a two-day
forecast; the assembled labels are strictly increasing and the forecast
dates come after the last label. -/
theorem assembled_dates_strictly_increasing_witness :
    cdWitness.labels.Pairwise (· < ·) ∧
      ∀ l, cdWitness.labels.getLast? = some l →
        ∀ x ∈ cdWitness.predictionDates, l < x :=
  assembled_dates_strictly_increasing ⟨[1, 2, 3], [10, 11, 12]⟩
    [⟨"AAPL", 5, 20, 1⟩] [("arima", fsLate)] .y1 true "arima" cdWitness
    rfl (by decide) (by decide) (by decide) (by decide) (by decide)

/-- The three configured forecast models
(`const models = ['arima', 'prophet', 'ml']`). -/
def predictionModels : List String := ["arima", "prophet", "ml"]

/-- One provider request as issued by `predictStock(symbol, model, days)`. -/
structure ProviderRequest where
  symbol : String
  model : String
  days : Nat
  deriving DecidableEq

/-- One step of the `predictionResults.forEach` aggregation: a successful
settled result writes its model's key into the fresh object, a failed one
only logs a warning and writes nothing. -/
def aggStep (acc : PredictionMap) (p : String × Option ForecastSet) : PredictionMap :=
  match p.2 with
  | some fs => objSet acc p.1 fs
  | none => acc

/-- The aggregation loop of `handleStockSelect`: pair each model with its
settled result and collect the successful ones into `predictionsByModel`. -/
def aggregateResults (models : List String)
    (results : List (Option ForecastSet)) : PredictionMap :=
  (models.zip results).foldl aggStep []

/-- Error message set by the `catch` of `handleStockSelect`. -/
def fetchErrorMsg : String := "Failed to fetch stock data. Please try again."

/-- Error message set when no model produced predictions. -/
def noPredictionsMsg : String :=
  "Failed to generate predictions. Please try a different stock or try again later."

/-- Synchronous head of `handleStockSelect`: set loading, clear the error,
record the selection, and reset all per-selection state. -/
def selectReset (s : AppState) (stock : Stock) : AppState :=
  { s with loading := true, error := none, selectedStock := some stock,
           stockData := none, stockInfo := none, predictions := [],
           realTimeData := [] }

/-- Continuation run when the historical fetch resolves. -/
def applyHistory (s : AppState) (h : HistoricalData) : AppState :=
  { s with stockData := some h }

/-- Continuation run when the info fetch resolves. -/
def applyInfo (s : AppState) (i : StockInfo) : AppState :=
  { s with stockInfo := some i }

/-- The `catch` branch of `handleStockSelect` followed by its `finally`:
set the fetch error and clear the loading flag. -/
def applyFetchFailure (s : AppState) : AppState :=
  { s with error := some fetchErrorMsg, loading := false }

/-- Continuation run when `Promise.all` over the three model calls
settles: aggregate the successful results into a fresh object, store it,
set the user-visible error exactly when the object is empty, then clear
the loading flag (the `finally`). -/
def applyPredictions (s : AppState) (results : List (Option ForecastSet)) : AppState :=
  let predictionsByModel := aggregateResults predictionModels results
  let s' := { s with predictions := predictionsByModel }
  let s'' :=
    if predictionsByModel.isEmpty then { s' with error := some noPredictionsMsg }
    else s'
  { s'' with loading := false }

/-- The injected outcomes of the awaited externals of one
`handleStockSelect` run: the history fetch, the info fetch, and the three
settled model calls (`predictStock` never rejects; it absorbs errors into
a failed result). -/
structure SelectOutcome where
  history : Except String HistoricalData
  info : Except String StockInfo
  predictionResults : List (Option ForecastSet)

/-- `handleStockSelect(stock)` run to completion with the given external
outcomes: reset, await history, await info, fan out the three provider
requests, aggregate. Returns the final state and the provider requests
issued. A thrown fetch lands in the `catch`, so no provider request is
issued after a failed history fetch. -/
def handleStockSelect (s : AppState) (stock : Stock) (out : SelectOutcome) :
    AppState × List ProviderRequest :=
  let s1 := selectReset s stock
  match out.history with
  | .error _ => (applyFetchFailure s1, [])
  | .ok h =>
    let s2 := applyHistory s1 h
    match out.info with
    | .error _ => (applyFetchFailure s2, [])
    | .ok i =>
      let s3 := applyInfo s2 i
      (applyPredictions s3 out.predictionResults,
       predictionModels.map (fun mdl => ⟨stock.symbol, mdl, 7⟩))

/-- Claim C3: when a selection reaches the prediction stage with the
three providers settling in any success/failure pattern, the stored
prediction map holds exactly one entry per successful provider (that
provider's forecast) and no entry for a failed one, and the user-visible
error is set if and only if every provider failed. -/
theorem partial_provider_failure_isolated (s : AppState) (stock : Stock)
    (h : HistoricalData) (i : StockInfo) (r1 r2 r3 : Option ForecastSet) :
    (∀ mdl r, (mdl, r) ∈ predictionModels.zip [r1, r2, r3] →
        objGet ((handleStockSelect s stock ⟨.ok h, .ok i, [r1, r2, r3]⟩).1).predictions mdl = r) ∧
      ((handleStockSelect s stock ⟨.ok h, .ok i, [r1, r2, r3]⟩).1).predictions.length
        = ([r1, r2, r3].filterMap id).length ∧
      (((handleStockSelect s stock ⟨.ok h, .ok i, [r1, r2, r3]⟩).1).error.isSome
        ↔ ∀ r ∈ [r1, r2, r3], r = none) := by
  rcases r1 with _ | f1 <;> rcases r2 with _ | f2 <;> rcases r3 with _ | f3 <;>
    simp [handleStockSelect, selectReset, applyHistory, applyInfo,
      applyPredictions, aggregateResults, aggStep, objSet, objGet,
      predictionModels] <;>
    (intro mdl r hmr
     rcases hmr with ⟨rfl, rfl⟩ | ⟨rfl, rfl⟩ | ⟨rfl, rfl⟩ <;> simp)

/-- Claim C10: a selection whose historical fetch throws aborts in the
`catch`: the fetch error is surfaced, no provider request is issued, and
historical data, stock info, prediction map and live buffer all stay in
the freshly reset empty state. -/
theorem history_failure_aborts_selection (s : AppState) (stock : Stock)
    (e : String) (oi : Except String StockInfo)
    (orr : List (Option ForecastSet)) :
    (handleStockSelect s stock ⟨.error e, oi, orr⟩).1.stockData = none ∧
      (handleStockSelect s stock ⟨.error e, oi, orr⟩).1.stockInfo = none ∧
      (handleStockSelect s stock ⟨.error e, oi, orr⟩).1.predictions = [] ∧
      (handleStockSelect s stock ⟨.error e, oi, orr⟩).1.realTimeData = [] ∧
      (handleStockSelect s stock ⟨.error e, oi, orr⟩).1.error = some fetchErrorMsg ∧
      (handleStockSelect s stock ⟨.error e, oi, orr⟩).2 = [] :=
  ⟨rfl, rfl, rfl, rfl, rfl, rfl⟩

/-- One in-flight `handleStockSelect` continuation, tagged with the serial
number of the selection that started it and the stock it captured. -/
structure PendingReq where
  sid : Nat
  stock : Stock
  deriving DecidableEq

/-- The front end under its event loop: the React state plus, for every
started `handleStockSelect` run, the continuation it is suspended at —
awaiting its history fetch, its info fetch, or its prediction batch. The
continuations mirror the source closures exactly: in particular, the one
resumed by a settled prediction batch stores its results without any
comparison against the currently selected stock. -/
structure Machine where
  app : AppState
  nextSid : Nat
  pendingHistory : List PendingReq
  pendingInfo : List PendingReq
  pendingPreds : List PendingReq
  deriving DecidableEq

/-- External events processed one at a time by the single-threaded event
loop: a user selection, the resolution or rejection of an outstanding
fetch, the settling of an outstanding prediction batch, and a socket
push. -/
inductive Event where
  | select (stock : Stock)
  | historyOk (sid : Nat) (h : HistoricalData)
  | historyErr (sid : Nat)
  | infoOk (sid : Nat) (i : StockInfo)
  | infoErr (sid : Nat)
  | predsDone (sid : Nat) (results : List (Option ForecastSet))
  | stockUpdate (d : UpdateData)
  deriving DecidableEq

/-- Look up an outstanding continuation by its selection serial. -/
def findReq (l : List PendingReq) (sid : Nat) : Option PendingReq :=
  l.find? (fun p => p.sid == sid)

/-- Retire an outstanding continuation. -/
def removeReq (l : List PendingReq) (sid : Nat) : List PendingReq :=
  l.filter (fun p => p.sid != sid)

/-- One event-loop step. A resolution event for a serial with no
outstanding continuation is a no-op; otherwise the matching continuation
from `handleStockSelect` runs against the current state, exactly as the
source's closures do. -/
def step (m : Machine) : Event → Machine
  | .select stock =>
      { m with app := selectReset m.app stock,
               nextSid := m.nextSid + 1,
               pendingHistory := m.pendingHistory ++ [⟨m.nextSid, stock⟩] }
  | .historyOk sid h =>
      match findReq m.pendingHistory sid with
      | some pr =>
          { m with app := applyHistory m.app h,
                   pendingHistory := removeReq m.pendingHistory sid,
                   pendingInfo := m.pendingInfo ++ [pr] }
      | none => m
  | .historyErr sid =>
      match findReq m.pendingHistory sid with
      | some _ =>
          { m with app := applyFetchFailure m.app,
                   pendingHistory := removeReq m.pendingHistory sid }
      | none => m
  | .infoOk sid i =>
      match findReq m.pendingInfo sid with
      | some pr =>
          { m with app := applyInfo m.app i,
                   pendingInfo := removeReq m.pendingInfo sid,
                   pendingPreds := m.pendingPreds ++ [pr] }
      | none => m
  | .infoErr sid =>
      match findReq m.pendingInfo sid with
      | some _ =>
          { m with app := applyFetchFailure m.app,
                   pendingInfo := removeReq m.pendingInfo sid }
      | none => m
  | .predsDone sid results =>
      match findReq m.pendingPreds sid with
      | some _ =>
          { m with app := applyPredictions m.app results,
                   pendingPreds := removeReq m.pendingPreds sid }
      | none => m
  | .stockUpdate d => { m with app := onStockUpdate m.app d }

/-- Run the event loop over a sequence of events. -/
def runEvents (m : Machine) (es : List Event) : Machine :=
  es.foldl step m

/-- The machine at startup: nothing selected, nothing in flight. -/
def initMachine : Machine :=
  ⟨⟨none, none, none, [], false, none, []⟩, 0, [], [], []⟩

/-- The instrument selected first in the race scenario. -/
def stockA : Stock := ⟨"AAPL", "Apple Inc."⟩

/-- The instrument selected second in the race scenario. -/
def stockB : Stock := ⟨"MSFT", "Microsoft"⟩

/-- Forecast delivered by instrument A's provider batch. -/
def fsStaleA : ForecastSet := ⟨[300, 301], [42, 43], [41, 42], [43, 44]⟩

/-- Company info payload used in the race scenario. -/
def infoSample : StockInfo := ⟨10, 1000⟩

/-- The racing schedule: A is selected and reaches its prediction batch;
B is selected and reaches its prediction batch; then A's batch — still
outstanding from the superseded selection — settles last. -/
def raceTrace : List Event :=
  [.select stockA,
   .historyOk 0 ⟨[1, 2], [10, 11]⟩,
   .infoOk 0 infoSample,
   .select stockB,
   .historyOk 1 ⟨[1, 2], [50, 51]⟩,
   .infoOk 1 infoSample,
   .predsDone 0 [some fsStaleA, none, none]]

/-- Claim C1 (code bug): after `select(B)` supersedes `select(A)`, A's
still-outstanding prediction batch settles and its continuation stores
A's forecasts with no staleness check, so a result from A's selection
epoch lands in the prediction map while B is the selected stock. The
source has no generation counter: tick staleness is handled by the
listener's symbol comparison, but nothing guards the provider results
awaited inside `handleStockSelect`. -/
theorem stale_provider_result_merged_into_new_selection :
    (runEvents initMachine raceTrace).app.selectedStock = some stockB ∧
      objGet (runEvents initMachine raceTrace).app.predictions "arima"
        = some fsStaleA :=
  ⟨rfl, rfl⟩
